import Mathlib

/-!
Shallow embedding of the autonomous-learning-agent repository
(modules answer_evaluator.py, progress_tracker.py, vector_store.py and the
paragraph chunker of graph/learning_graph.py), together with theorems that
settle the claims about those modules.

Strings are embedded as lists of characters, Python floats as rationals,
Python dicts as association lists (first binding wins, mirroring dict
lookup), and functions that raise ValueError return Option (none = raise).
-/

namespace Agent

/-- Strings from the Python source are embedded as lists of characters. -/
abbrev Str : Type := List Char

/-- Whitespace test used by the Python str.strip and str.split defaults. -/
def isWS (c : Char) : Bool :=
  c == ' ' || c == '\t' || c == '\n' || c == '\r' || c == '\x0b' || c == '\x0c'

/-- Embedding of str.lower (ASCII case mapping). -/
def lowerStr (s : Str) : Str := s.map Char.toLower

/-- Leading-whitespace removal, the first half of str.strip. -/
def dropStart (s : Str) : Str := s.dropWhile isWS

/-- Trailing-whitespace removal, the second half of str.strip. -/
def dropEnd (s : Str) : Str := (s.reverse.dropWhile isWS).reverse

/-- Embedding of str.strip with no arguments. -/
def stripStr (s : Str) : Str := dropStart (dropEnd s)

/-- Boolean test that the second list is an initial segment of the first. -/
def startsWithStr : Str → Str → Bool
  | _, [] => true
  | [], _ :: _ => false
  | a :: as, b :: bs => a == b && startsWithStr as bs

/-- Embedding of the Python substring test (needle in hay). -/
def containsStr : Str → Str → Bool
  | [], needle => needle.isEmpty
  | a :: as, needle => startsWithStr (a :: as) needle || containsStr as needle

/-- Boolean test that the second list is a final segment of the first,
mirroring str.endswith. -/
def endsWithStr (s suffix : Str) : Bool := startsWithStr s.reverse suffix.reverse

/-- Lookup in an association list, mirroring dict.get with default None. -/
def lookupStr (m : List (Str × Str)) (k : Str) : Option Str :=
  (m.find? (fun e => e.1 == k)).map (fun e => e.2)

/-- Embedding of str.join over a comma-space separator, used by the
feedback strings of the answer evaluator. -/
def commaJoin : List Str → Str
  | [] => []
  | [x] => x
  | x :: y :: xs => x ++ (", ".data) ++ commaJoin (y :: xs)

/-- Fixed strings appearing in answer_evaluator.py. -/
def sMultipleChoice : Str := "multiple_choice".data

/-- Question type tag for true/false questions. -/
def sTrueFalse : Str := "true_false".data

/-- Question type tag for short answer questions. -/
def sShortAnswer : Str := "short_answer".data

/-- Feedback text returned for an empty answer. -/
def sNoAnswer : Str := "No answer provided.".data

/-- Feedback text for a long answer to a question without keywords. -/
def sUnableVerify : Str := "Answer recorded. Unable to verify without reference keywords.".data

/-- Feedback text for a short answer to a question without keywords. -/
def sMoreDetail : Str := "Please provide a more detailed answer.".data

/-- Feedback text for a correct short answer. -/
def sGoodAnswer : Str := "Good answer! You covered the key concepts.".data

/-- Feedback text piece for a wrong binary answer. -/
def sCorrectAnswerIs : Str := "Correct answer: ".data

/-- Feedback text piece for partial credit. -/
def sPartialCredit : Str := "Partial credit. You mentioned: ".data

/-- Feedback text piece listing missing keywords. -/
def sConsiderAlso : Str := ". Consider also: ".data

/-- Feedback text piece for a fully wrong short answer. -/
def sReviewConcepts : Str := "Review these concepts: ".data

/-- Embedding of the Question dataclass of quiz_generator.py (the fields
used by grading; timestamps are omitted). -/
structure Question where
  id : Str
  question_text : Str := []
  question_type : Str := sShortAnswer
  options : List Str := []
  correct_answer : Str := []
  keywords : List Str := []
  hint : Str := []
  explanation : Str := []
  objective : Str := []
  difficulty : Str := []
deriving Repr, DecidableEq

/-- Embedding of the EvaluationResult dataclass of answer_evaluator.py. -/
structure EvaluationResult where
  question_id : Str
  is_correct : Bool
  score : ℚ
  feedback : Str
  matched_keywords : List Str
  missing_keywords : List Str
deriving Repr, DecidableEq

/-- Word-character test of the regular-expression escape b for ASCII text. -/
def isWordChar (c : Char) : Bool :=
  (decide ('a' ≤ c) && decide (c ≤ 'z')) ||
  (decide ('A' ≤ c) && decide (c ≤ 'Z')) ||
  (decide ('0' ≤ c) && decide (c ≤ '9')) || c == '_'

/-- Whether position i of the text holds a word character. -/
def wordAt (text : Str) (i : Nat) : Bool :=
  match text.drop i with
  | c :: _ => isWordChar c
  | [] => false

/-- Word-boundary test at position i, the semantics of the regex escape b. -/
def boundaryAt (text : Str) (i : Nat) : Bool :=
  (if i = 0 then false else wordAt text (i - 1)) != wordAt text i

/-- Embedding of re.search of the escaped keyword between two word
boundaries, as built in _keyword_matches of answer_evaluator.py. -/
def regexWordMatch (keyword text : Str) : Bool :=
  (List.range (text.length + 1)).any (fun i =>
    boundaryAt text i && startsWithStr (text.drop i) keyword &&
    boundaryAt text (i + keyword.length))

/-- Embedding of AnswerEvaluator._keyword_matches: direct substring match,
word-boundary regex match, then the simple stemming variations. -/
def keywordMatches (keyword text : Str) : Bool :=
  containsStr text keyword ||
  regexWordMatch keyword text ||
  (if endsWithStr keyword ( "ing".data ) then
    containsStr text (keyword.take (keyword.length - 3)) ||
    containsStr text (keyword.take (keyword.length - 3) ++ [ 'e' ])
  else if endsWithStr keyword ( "ed".data ) then
    containsStr text (keyword.take (keyword.length - 2)) ||
    containsStr text (keyword.take (keyword.length - 2) ++ [ 'e' ])
  else if endsWithStr keyword ( [ 's' ] ) then
    containsStr text (keyword.take (keyword.length - 1))
  else false)

/-- Embedding of AnswerEvaluator._evaluate_multiple_choice.  The user
answer has already been lower-cased and stripped by evaluate_answer. -/
def evalMultipleChoice (q : Question) (user_answer : Str) : EvaluationResult :=
  let correct := stripStr (lowerStr q.correct_answer)
  let user_letter := user_answer.take 1
  let correct_letter := correct.take 1
  let ok := user_letter == correct_letter
  { question_id := q.id
    is_correct := ok
    score := if ok = true then 1 else 0
    feedback := if ok = true then [] else sCorrectAnswerIs ++ q.correct_answer
    matched_keywords := if ok = true then [ user_letter ] else []
    missing_keywords := if ok = true then [] else [ correct_letter ] }

/-- Token sets used to classify a true/false answer. -/
def trueVariants : List Str :=
  [ "true".data, "t".data, "yes".data, "y".data, "1".data, "correct".data ]

/-- Token set classifying an answer as false. -/
def falseVariants : List Str :=
  [ "false".data, "f".data, "no".data, "n".data, "0".data,
    "incorrect".data, "wrong".data ]

/-- Embedding of AnswerEvaluator._evaluate_true_false. -/
def evalTrueFalse (q : Question) (user_answer : Str) : EvaluationResult :=
  let correct := stripStr (lowerStr q.correct_answer)
  let user_is_true := trueVariants.any (fun v => containsStr user_answer v)
  let user_is_false := falseVariants.any (fun v => containsStr user_answer v)
  let correct_is_true := trueVariants.any (fun v => containsStr correct v)
  let ok := (user_is_true && correct_is_true) || (user_is_false && !correct_is_true)
  { question_id := q.id
    is_correct := ok
    score := if ok = true then 1 else 0
    feedback := if ok = true then [] else sCorrectAnswerIs ++ q.correct_answer
    matched_keywords := if ok = true then [ "true".data ] else []
    missing_keywords := if ok = true then [] else [ "false".data ] }

/-- Scoring curve of _evaluate_short_answer, applied to the number of
matched keywords and the total number of keywords. -/
def shortAnswerScore (matched total : Nat) : ℚ :=
  min 1 (max 0 (
    if (8 : ℚ)/10 ≤ (matched : ℚ) / (total : ℚ) then 1
    else if (5 : ℚ)/10 ≤ (matched : ℚ) / (total : ℚ) then
      7/10 + ((matched : ℚ) / (total : ℚ) - 5/10) * (6/10)
    else ((matched : ℚ) / (total : ℚ)) * (14/10)))

/-- Embedding of AnswerEvaluator._evaluate_short_answer. -/
def evalShortAnswer (q : Question) (user_answer : Str) : EvaluationResult :=
  if q.keywords.isEmpty then
    if 20 < user_answer.length then
      { question_id := q.id, is_correct := true, score := 7/10,
        feedback := sUnableVerify, matched_keywords := [], missing_keywords := [] }
    else
      { question_id := q.id, is_correct := false, score := 3/10,
        feedback := sMoreDetail, matched_keywords := [], missing_keywords := [] }
  else
    let matched := q.keywords.filter (fun kw => keywordMatches (lowerStr kw) user_answer)
    let missing := q.keywords.filter (fun kw => ! keywordMatches (lowerStr kw) user_answer)
    let score := shortAnswerScore matched.length q.keywords.length
    let ok := decide ((7 : ℚ)/10 ≤ score)
    { question_id := q.id
      is_correct := ok
      score := score
      feedback :=
        if ok = true then sGoodAnswer
        else if ! matched.isEmpty then
          sPartialCredit ++ commaJoin matched ++ sConsiderAlso ++ commaJoin (missing.take 2)
        else sReviewConcepts ++ commaJoin (q.keywords.take 3)
      matched_keywords := matched
      missing_keywords := missing }

/-- Embedding of AnswerEvaluator.evaluate_answer. -/
def evaluate_answer (q : Question) (user_answer : Str) : EvaluationResult :=
  if (stripStr user_answer).isEmpty then
    { question_id := q.id, is_correct := false, score := 0,
      feedback := sNoAnswer, matched_keywords := [], missing_keywords := q.keywords }
  else
    let ua := stripStr (lowerStr user_answer)
    if q.question_type == sMultipleChoice then evalMultipleChoice q ua
    else if q.question_type == sTrueFalse then evalTrueFalse q ua
    else evalShortAnswer q ua

/-- Embedding of the QuizResult dataclass (timestamp omitted). -/
structure QuizResult where
  checkpoint_id : Str
  questions : List Question
  user_answers : List (Str × Str)
  scores : List (Str × ℚ)
  total_score : ℚ
  passed : Bool
  attempt_number : Nat
  weak_concepts : List Str
deriving Repr, DecidableEq

/-- Embedding of user_answers.get(question.id, two-quote default). -/
def getAnswer (m : List (Str × Str)) (qid : Str) : Str :=
  match m.find? (fun e => e.1 == qid) with
  | some e => e.2
  | none => []

/-- Embedding of AnswerEvaluator.evaluate_quiz.  The pass threshold is the
field pass_threshold of the evaluator (default 0.70). -/
def evaluate_quiz (pass_threshold : ℚ) (questions : List Question)
    (user_answers : List (Str × Str)) : QuizResult :=
  let results := questions.map (fun q => (q, evaluate_answer q (getAnswer user_answers q.id)))
  let total : ℚ := (results.map (fun r => r.2.score)).sum
  let weak := (results.filter
      (fun r => decide (r.2.score < (5 : ℚ)/10) && ! r.1.objective.isEmpty)).map
      (fun r => r.1.objective)
  let avg : ℚ := if questions.isEmpty then 0 else total / (questions.length : ℚ)
  { checkpoint_id := []
    questions := questions
    user_answers := user_answers
    scores := results.map (fun r => (r.1.id, r.2.score))
    total_score := avg
    passed := decide (pass_threshold ≤ avg)
    attempt_number := 1
    weak_concepts := weak.dedup }

/-- Embedding of the CheckpointStatus enum of progress_tracker.py. -/
inductive CheckpointStatus where
  | not_started
  | in_progress
  | studying
  | quiz_in_progress
  | needs_teaching
  | passed
  | failed
deriving Repr, DecidableEq

/-- One entry of CheckpointProgress.quiz_results (timestamp omitted). -/
structure QuizRecord where
  attempt : Nat
  score : ℚ
  passed : Bool
  weak_concepts : List Str
deriving Repr, DecidableEq

/-- Embedding of the CheckpointProgress dataclass (datetimes omitted). -/
structure CheckpointProgress where
  checkpoint_id : Str
  topic : Str := []
  status : CheckpointStatus := CheckpointStatus.not_started
  attempt_count : Nat := 0
  max_attempts : Nat := 3
  best_score : ℚ := 0
  last_score : ℚ := 0
  weak_concepts : List Str := []
  study_material_loaded : Bool := false
  quiz_results : List QuizRecord := []
deriving Repr, DecidableEq

/-- Property attempts_remaining: max(0, max_attempts - attempt_count).
Truncated natural subtraction models the Python max with 0. -/
def attemptsRemaining (p : CheckpointProgress) : Nat :=
  p.max_attempts - p.attempt_count

/-- Property can_retry: attempts remain and the checkpoint is not passed. -/
def canRetry (p : CheckpointProgress) : Bool :=
  decide (0 < attemptsRemaining p) && ! (p.status == CheckpointStatus.passed)

/-- Embedding of the LearningSession dataclass (started_at omitted). -/
structure LearningSession where
  session_id : Str
  checkpoints : List (Str × CheckpointProgress) := []
  current_checkpoint_id : Option Str := none
  completed_checkpoints : List Str := []
deriving Repr, DecidableEq

/-- Embedding of the ProgressTracker class state. -/
structure ProgressTracker where
  max_attempts : Nat := 3
  session : Option LearningSession := none
  checkpoints_order : List Str := []
deriving Repr, DecidableEq

/-- Lookup of session.checkpoints.get(checkpoint_id). -/
def lookupCp (cps : List (Str × CheckpointProgress)) (cid : Str) :
    Option CheckpointProgress :=
  (cps.find? (fun e => e.1 == cid)).map (fun e => e.2)

/-- In-place mutation of the progress object stored under a checkpoint id,
modelled as replacement in the association list. -/
def updateCp (cps : List (Str × CheckpointProgress)) (cid : Str)
    (p : CheckpointProgress) : List (Str × CheckpointProgress) :=
  cps.map (fun e => if e.1 == cid then (e.1, p) else e)

/-- Embedding of ProgressTracker._get_progress; none models the raised
ValueError (no active session, or checkpoint id not found). -/
def getProgress (t : ProgressTracker) (cid : Str) :
    Option (LearningSession × CheckpointProgress) :=
  match t.session with
  | none => none
  | some s =>
    match lookupCp s.checkpoints cid with
    | none => none
    | some p => some (s, p)

/-- The progress update performed by start_quiz on the found checkpoint. -/
def quizStartP (p : CheckpointProgress) : CheckpointProgress :=
  { p with status := CheckpointStatus.quiz_in_progress,
           attempt_count := p.attempt_count + 1 }

/-- Embedding of ProgressTracker.start_quiz. -/
def start_quiz (t : ProgressTracker) (cid : Str) :
    Option (ProgressTracker × CheckpointProgress) :=
  match getProgress t cid with
  | none => none
  | some (s, p) =>
    let s2 := { s with checkpoints := updateCp s.checkpoints cid (quizStartP p) }
    some ({ t with session := some s2 }, quizStartP p)

/-- The loop of record_quiz_result that copies new weak concepts into
progress.weak_concepts, skipping duplicates. -/
def addNewConcepts (old new : List Str) : List Str :=
  new.foldl (fun acc c => if c ∈ acc then acc else acc ++ [ c ]) old

/-- The score, weak-concept and history update of record_quiz_result that
happens before the status is decided. -/
def recordScoreUpdate (p : CheckpointProgress) (score : ℚ) (passed : Bool)
    (weak : List Str) : CheckpointProgress :=
  { p with
    last_score := score
    best_score := if p.best_score < score then score else p.best_score
    weak_concepts := addNewConcepts p.weak_concepts weak
    quiz_results := p.quiz_results ++
      [ { attempt := p.attempt_count, score := score, passed := passed,
          weak_concepts := weak } ] }

/-- Embedding of ProgressTracker.record_quiz_result. -/
def record_quiz_result (t : ProgressTracker) (cid : Str) (score : ℚ)
    (passed : Bool) (weak : List Str) :
    Option (ProgressTracker × CheckpointProgress) :=
  match getProgress t cid with
  | none => none
  | some (s, p) =>
    if passed then
      let p2 := { recordScoreUpdate p score passed weak with
                    status := CheckpointStatus.passed }
      let s2 := { s with
                    checkpoints := updateCp s.checkpoints cid p2
                    completed_checkpoints :=
                      if cid ∈ s.completed_checkpoints then s.completed_checkpoints
                      else s.completed_checkpoints ++ [ cid ] }
      some ({ t with session := some s2 }, p2)
    else
      let p1 := recordScoreUpdate p score passed weak
      let p2 := { p1 with
                    status :=
                      if canRetry p1 = true then CheckpointStatus.needs_teaching
                      else CheckpointStatus.failed }
      let s2 := { s with checkpoints := updateCp s.checkpoints cid p2 }
      some ({ t with session := some s2 }, p2)

/-- The progress value produced by record_quiz_result on a failing quiz:
scores updated, then needs_teaching while retry is possible, failed
otherwise. -/
def recordFailP (p : CheckpointProgress) (score : ℚ) (weak : List Str) :
    CheckpointProgress :=
  { recordScoreUpdate p score false weak with
      status :=
        if canRetry (recordScoreUpdate p score false weak) = true
        then CheckpointStatus.needs_teaching
        else CheckpointStatus.failed }

/-- Tracker whose session is the given session with replaced checkpoint
map; the shape every mutating tracker call produces. -/
def withCps (t : ProgressTracker) (s : LearningSession)
    (cps : List (Str × CheckpointProgress)) : ProgressTracker :=
  { t with session := some { s with checkpoints := cps } }

/-- Progress after one start-quiz / failed-record cycle. -/
def failOnce (p : CheckpointProgress) (score : ℚ) : CheckpointProgress :=
  recordFailP (quizStartP p) score []

/-- Checkpoint map after one start-quiz / failed-record cycle on the
checkpoint bound to the given id. -/
def cycleCps (cps : List (Str × CheckpointProgress)) (cid : Str)
    (p : CheckpointProgress) (score : ℚ) : List (Str × CheckpointProgress) :=
  updateCp (updateCp cps cid (quizStartP p)) cid (failOnce p score)

/-- The scan of move_to_next_checkpoint over the remaining checkpoint
order: skip ids that are missing or already passed. -/
def scanNext (cps : List (Str × CheckpointProgress)) :
    List Str → Option (Str × CheckpointProgress)
  | [] => none
  | cid :: rest =>
    match lookupCp cps cid with
    | some p =>
      if p.status == CheckpointStatus.passed then scanNext cps rest
      else some (cid, p)
    | none => scanNext cps rest

/-- The acceptance test of the scan: the id is bound in the checkpoint
map and its status is not passed. -/
def notPassedAt (cps : List (Str × CheckpointProgress)) (cid : Str) : Bool :=
  match lookupCp cps cid with
  | some p => ! (p.status == CheckpointStatus.passed)
  | none => false

/-- Embedding of ProgressTracker.move_to_next_checkpoint.  The first
component is the tracker after the call (current_checkpoint_id may have
been reassigned); the second is the returned progress or None. -/
def move_to_next_checkpoint (t : ProgressTracker) :
    ProgressTracker × Option CheckpointProgress :=
  match t.session with
  | none => (t, none)
  | some s =>
    let start : Nat :=
      match s.current_checkpoint_id with
      | none => 0
      | some cid =>
        match t.checkpoints_order.findIdx? (fun x => x == cid) with
        | some i => i + 1
        | none => 0
    match scanNext s.checkpoints (t.checkpoints_order.drop start) with
    | some (cid, p) =>
      ({ t with session := some { s with current_checkpoint_id := some cid } }, some p)
    | none => (t, none)

/-- One start_quiz call followed by one failing record_quiz_result call,
returning the tracker after both (none when either call raises). -/
def startFailCycle (t : ProgressTracker) (cid : Str) (score : ℚ) :
    Option ProgressTracker :=
  match start_quiz t cid with
  | none => none
  | some (t1, _) =>
    match record_quiz_result t1 cid score false [] with
    | none => none
    | some (t2, _) => some t2

/-- Three consecutive start_quiz / failing record_quiz_result cycles. -/
def threeFailedCycles (t : ProgressTracker) (cid : Str) (s1 s2 s3 : ℚ) :
    Option ProgressTracker :=
  (startFailCycle t cid s1).bind (fun t2 =>
    (startFailCycle t2 cid s2).bind (fun t3 => startFailCycle t3 cid s3))

/-- Observable state of one checkpoint of a tracker: status, attempt count
and the can_retry property. -/
def cpState (t : ProgressTracker) (cid : Str) :
    Option (CheckpointStatus × Nat × Bool) :=
  (getProgress t cid).map (fun x => (x.2.status, x.2.attempt_count, canRetry x.2))

/-- Embedding of the VectorDocument dataclass of vector_store.py.
Embeddings are rational vectors; metadata is a string-keyed map. -/
structure VectorDocument where
  id : Str
  content : Str := []
  metadata : List (Str × Str) := []
  embedding : Option (List ℚ) := none
deriving Repr, DecidableEq

/-- The document state of the VectorStore class, in insertion order. -/
structure VectorStore where
  documents : List VectorDocument := []
deriving Repr, DecidableEq

/-- Inner product of two embedding vectors (np.dot). -/
def dotQ : List ℚ → List ℚ → ℚ
  | a :: as, b :: bs => a * b + dotQ as bs
  | _, _ => 0

/-- The metadata filter of search: every filter key must be present in the
document metadata with the same value. -/
def metadataMatches (md : List (Str × Str)) (filt : List (Str × Str)) : Bool :=
  filt.all (fun kv => lookupStr md kv.1 == some kv.2)

/-- Insertion step of sorting result pairs by score, largest first. -/
def insertByScore (x : VectorDocument × ℚ) :
    List (VectorDocument × ℚ) → List (VectorDocument × ℚ)
  | [] => [ x ]
  | y :: ys => if y.2 ≤ x.2 then x :: y :: ys else y :: insertByScore x ys

/-- Sorting of result pairs by descending score, the
results.sort(reverse=True) call of the brute-force search path. -/
def sortByScoreDesc : List (VectorDocument × ℚ) → List (VectorDocument × ℚ)
  | [] => []
  | x :: xs => insertByScore x (sortByScoreDesc xs)

/-- Embedding of VectorStore.search along its in-repository brute-force
path (the FAISS path delegates ranking to the external FAISS library).
The embedding function is a parameter standing for _get_embedding. -/
def search (emb : Str → List ℚ) (store : VectorStore) (query : Str) (k : Nat)
    (filt : Option (List (Str × Str))) : List (VectorDocument × ℚ) :=
  if store.documents.isEmpty then []
  else
    let qe := emb query
    let results := store.documents.filterMap (fun doc =>
      match doc.embedding with
      | none => none
      | some e =>
        match filt with
        | some f =>
          if metadataMatches doc.metadata f then some (doc, dotQ qe e) else none
        | none => some (doc, dotQ qe e))
    (sortByScoreDesc results).take k

/-- Embedding of VectorStore.clear: all documents are removed. -/
def clear (_store : VectorStore) : VectorStore := { documents := [] }

/-- Characters of the blank-line paragraph separator. -/
def nl2 : Str := [ '\n', '\n' ]

/-- Embedding of content.split of the two-newline separator, as used by
_store_in_vector_db of learning_graph.py. -/
def splitParas : Str → List Str
  | [] => [ [] ]
  | '\n' :: '\n' :: rest => [] :: splitParas rest
  | c :: rest =>
    match splitParas rest with
    | [] => [ [ c ] ]
    | p :: ps => (c :: p) :: ps

/-- The paragraph-accumulation loop of _store_in_vector_db: greedily grow
the current buffer, flush a stripped chunk when the next paragraph does
not fit, and flush the final non-empty buffer. -/
def chunkLoop (chunk_size : Nat) : List Str → Str → List Str
  | [], current => if current.isEmpty then [] else [ stripStr current ]
  | para :: rest, current =>
    if current.length + para.length < chunk_size then
      chunkLoop chunk_size rest (current ++ para ++ nl2)
    else
      (if current.isEmpty then [] else [ stripStr current ]) ++
        chunkLoop chunk_size rest (para ++ nl2)

/-- The chunking procedure of _store_in_vector_db on a content string. -/
def chunkContent (chunk_size : Nat) (content : Str) : List Str :=
  chunkLoop chunk_size (splitParas content) []

/-- Concatenation of paragraphs with the separator re-attached, the shape
of the chunk buffer before stripping. -/
def joinSep (ps : List Str) : Str := (ps.map (fun p => p ++ nl2)).flatten

/-- All characters of a string that are not whitespace, in order. -/
def filterNW (s : Str) : Str := s.filter (fun c => ! isWS c)

/-- Concrete true/false question with correct answer True, from the claim
about symmetric normalization. -/
def qTF : Question :=
  { id := "tf1".data, question_type := sTrueFalse, correct_answer := "True".data }

/-- Concrete multiple-choice question with correct answer B. -/
def qMC : Question :=
  { id := "mc1".data, question_type := sMultipleChoice, correct_answer := "B".data }

/-- Concrete short-answer question with four keywords. -/
def qSA : Question :=
  { id := "sa1".data, question_type := sShortAnswer,
    keywords := [ "alpha".data, "beta".data, "gamma".data, "delta".data ],
    objective := "objSA".data }

/-- Question scoring 1.0 in the quiz-aggregation example. -/
def qA : Question :=
  { id := "qa".data, question_type := sShortAnswer,
    keywords := [ "a".data ], objective := "objA".data }

/-- Question scoring 0.4 in the quiz-aggregation example. -/
def qB : Question :=
  { id := "qb".data, question_type := sShortAnswer,
    keywords := [ "p".data, "q".data, "r".data, "u".data, "v".data, "w".data,
      "x".data ],
    objective := "objB".data }

/-- Question scoring 0.6 in the quiz-aggregation example. -/
def qC : Question :=
  { id := "qc".data, question_type := sShortAnswer,
    keywords := [ "p".data, "q".data, "r".data, "u".data, "v".data, "w".data,
      "x".data ],
    objective := "objC".data }

/-- The three questions of the quiz-aggregation example. -/
def qs3 : List Question := [ qA, qB, qC ]

/-- Answers realizing the scores 1.0, 0.4 and 0.6 on qs3. -/
def ans3 : List (Str × Str) :=
  [ ( "qa".data, "a".data ), ( "qb".data, "p q".data ), ( "qc".data, "p q r".data ) ]

/-- Question with an empty objective, used to refute the unrestricted
weak-concepts claim. -/
def qNoObj : Question :=
  { id := "qn".data, question_type := sShortAnswer, keywords := [ "x".data ],
    objective := [] }

/-- Fresh checkpoint progress for the attempt-limit scenario. -/
def pW : CheckpointProgress := { checkpoint_id := "cp1".data, topic := "t1".data }

/-- Session holding the single fresh checkpoint pW. -/
def sW : LearningSession :=
  { session_id := "s1".data, checkpoints := [ ( "cp1".data, pW ) ],
    current_checkpoint_id := some ( "cp1".data ) }

/-- Tracker with the single-checkpoint session sW. -/
def tW : ProgressTracker :=
  { session := some sW, checkpoints_order := [ "cp1".data ] }

/-- Failed checkpoint with exhausted attempts, for the fourth start_quiz
scenario. -/
def pF : CheckpointProgress :=
  { checkpoint_id := "cp1".data, status := CheckpointStatus.failed,
    attempt_count := 3 }

/-- Session holding the failed checkpoint pF. -/
def sF : LearningSession :=
  { session_id := "s2".data, checkpoints := [ ( "cp1".data, pF ) ],
    current_checkpoint_id := some ( "cp1".data ) }

/-- Tracker with the failed-checkpoint session sF. -/
def tF : ProgressTracker :=
  { session := some sF, checkpoints_order := [ "cp1".data ] }

/-- Checkpoint progress with a given id and status, for the advancement
example. -/
def mkCp (cid : Str) (st : CheckpointStatus) : CheckpointProgress :=
  { checkpoint_id := cid, status := st }

/-- Four-checkpoint session of the sequential-advancement example:
checkpoint 2 is passed, checkpoints 1, 3 and 4 are not; current is 1. -/
def sEx : LearningSession :=
  { session_id := "s3".data
    checkpoints :=
      [ ( "c1".data, mkCp ( "c1".data ) CheckpointStatus.needs_teaching ),
        ( "c2".data, mkCp ( "c2".data ) CheckpointStatus.passed ),
        ( "c3".data, mkCp ( "c3".data ) CheckpointStatus.not_started ),
        ( "c4".data, mkCp ( "c4".data ) CheckpointStatus.not_started ) ]
    current_checkpoint_id := some ( "c1".data ) }

/-- Tracker for the sequential-advancement example. -/
def tEx : ProgressTracker :=
  { session := some sEx,
    checkpoints_order := [ "c1".data, "c2".data, "c3".data, "c4".data ] }

/-- Two-document store used to witness the search theorem. -/
def storeEx : VectorStore :=
  { documents :=
      [ { id := "d1".data, content := "one".data,
          metadata := [ ( "topic".data, "a".data ) ],
          embedding := some [ 1, 0 ] },
        { id := "d2".data, content := "two".data,
          metadata := [ ( "topic".data, "b".data ) ],
          embedding := some [ 0, 1 ] } ] }

/-- Constant embedding function used to witness the search theorem. -/
def embEx : Str → List ℚ := fun _ => [ 1, 0 ]

/-- Content of the chunking witness: one oversized paragraph. -/
def chunkContentEx : Str := "aaaaaa".data

/-- Claim C9: for every question and every empty or whitespace-only user
answer, evaluate_answer returns, without raising, score 0.0, is_correct
false, the no-answer feedback, no matched keywords and all of the
question keywords as missing. -/
theorem empty_answer_result (q : Question) (ua : Str) (h : stripStr ua = []) :
    evaluate_answer q ua =
      { question_id := q.id, is_correct := false, score := 0, feedback := sNoAnswer,
        matched_keywords := [], missing_keywords := q.keywords } := by
  unfold evaluate_answer
  rw [h]
  rfl

/-- Witness for C9: a whitespace-only answer to the concrete question qSA. -/
theorem empty_answer_result_witness :
    evaluate_answer qSA ( " ".data ) =
      { question_id := qSA.id, is_correct := false, score := 0, feedback := sNoAnswer,
        matched_keywords := [], missing_keywords := qSA.keywords } :=
  empty_answer_result qSA ( " ".data ) (by decide)

/-- Claim C7: a multiple_choice question with a non-empty correct answer
and a non-blank user answer is graded by comparing only the first
character of the lower-cased trimmed user answer with the first character
of the lower-cased trimmed correct answer, with binary score; with
correct answer B, the answers b, B) some other text and B-space score 1.0
and A scores 0.0. -/
theorem multiple_choice_eval (q : Question) (ua : Str)
    (htype : q.question_type = sMultipleChoice)
    (_hca : q.correct_answer ≠ [])
    (hne : stripStr ua ≠ []) :
    ((evaluate_answer q ua).is_correct
        = ((stripStr (lowerStr ua)).take 1 == (stripStr (lowerStr q.correct_answer)).take 1))
    ∧ ((evaluate_answer q ua).score
        = (if (evaluate_answer q ua).is_correct = true then 1 else 0))
    ∧ (evaluate_answer qMC ( "B".data )).score = 1
    ∧ (evaluate_answer qMC ( "B) some other text".data )).score = 1
    ∧ (evaluate_answer qMC ( "B ".data )).score = 1
    ∧ (evaluate_answer qMC ( "A".data )).score = 0 := by
  have hE : (stripStr ua).isEmpty = false := by
    cases hs : stripStr ua with
    | nil => exact absurd hs hne
    | cons a l => rfl
  refine ⟨?_, ?_, rfl, rfl, rfl, rfl⟩
  · unfold evaluate_answer
    rw [hE, htype]
    rfl
  · unfold evaluate_answer
    rw [hE, htype]
    rfl

/-- Witness for C7: the theorem applied to the concrete question qMC and
the concrete answer B with option text. -/
theorem multiple_choice_eval_witness :
    ((evaluate_answer qMC ( "B) some other text".data )).is_correct
        = ((stripStr (lowerStr ( "B) some other text".data ))).take 1
            == (stripStr (lowerStr qMC.correct_answer)).take 1))
    ∧ ((evaluate_answer qMC ( "B) some other text".data )).score
        = (if (evaluate_answer qMC ( "B) some other text".data )).is_correct = true
           then 1 else 0)) :=
  ⟨(multiple_choice_eval qMC ( "B) some other text".data ) rfl (by decide) (by decide)).1,
   (multiple_choice_eval qMC ( "B) some other text".data ) rfl (by decide) (by decide)).2.1⟩

/-- Claim C6: a true_false question with a non-empty correct answer and a
non-blank user answer is graded by substring containment against the two
fixed variant token sets, scoring 1.0 exactly when the user answer falls
in the truthiness class of the correct answer; with correct answer True,
the answers yes, T, correct score 1.0 and no, false, 0 score 0.0. -/
theorem true_false_eval (q : Question) (ua : Str)
    (htype : q.question_type = sTrueFalse)
    (_hca : q.correct_answer ≠ [])
    (hne : stripStr ua ≠ []) :
    ((evaluate_answer q ua).is_correct =
      (if trueVariants.any
            (fun v => containsStr (stripStr (lowerStr q.correct_answer)) v) = true
       then trueVariants.any (fun v => containsStr (stripStr (lowerStr ua)) v)
       else falseVariants.any (fun v => containsStr (stripStr (lowerStr ua)) v)))
    ∧ ((evaluate_answer q ua).score
        = (if (evaluate_answer q ua).is_correct = true then 1 else 0))
    ∧ (evaluate_answer qTF ( "yes".data )).score = 1
    ∧ (evaluate_answer qTF ( "T".data )).score = 1
    ∧ (evaluate_answer qTF ( "correct".data )).score = 1
    ∧ (evaluate_answer qTF ( "no".data )).score = 0
    ∧ (evaluate_answer qTF ( "false".data )).score = 0
    ∧ (evaluate_answer qTF ( "0".data )).score = 0 := by
  have hE : (stripStr ua).isEmpty = false := by
    cases hs : stripStr ua with
    | nil => exact absurd hs hne
    | cons a l => rfl
  have hMC : (q.question_type == sMultipleChoice) = false := by
    rw [htype]
    rfl
  have hTF : (q.question_type == sTrueFalse) = true := by
    rw [htype]
    rfl
  refine ⟨?_, ?_, rfl, rfl, rfl, rfl, rfl, rfl⟩
  · unfold evaluate_answer
    rw [hE, hMC, hTF]
    show ((trueVariants.any (fun v => containsStr (stripStr (lowerStr ua)) v)
            && trueVariants.any (fun v => containsStr (stripStr (lowerStr q.correct_answer)) v))
          || (falseVariants.any (fun v => containsStr (stripStr (lowerStr ua)) v)
            && ! trueVariants.any (fun v => containsStr (stripStr (lowerStr q.correct_answer)) v)))
        = _
    cases hc : trueVariants.any
        (fun v => containsStr (stripStr (lowerStr q.correct_answer)) v) <;> simp
  · unfold evaluate_answer
    rw [hE, hMC, hTF]
    rfl

/-- Witness for C6: the theorem applied to the concrete question qTF and
the concrete answer yes. -/
theorem true_false_eval_witness :
    ((evaluate_answer qTF ( "yes".data )).is_correct =
      (if trueVariants.any
            (fun v => containsStr (stripStr (lowerStr qTF.correct_answer)) v) = true
       then trueVariants.any (fun v => containsStr (stripStr (lowerStr ( "yes".data ))) v)
       else falseVariants.any (fun v => containsStr (stripStr (lowerStr ( "yes".data ))) v)))
    ∧ ((evaluate_answer qTF ( "yes".data )).score
        = (if (evaluate_answer qTF ( "yes".data )).is_correct = true then 1 else 0)) :=
  ⟨(true_false_eval qTF ( "yes".data ) rfl (by decide) (by decide)).1,
   (true_false_eval qTF ( "yes".data ) rfl (by decide) (by decide)).2.1⟩

/-- Claim C1: a short_answer question with keywords and a non-blank answer
is scored by the keyword match ratio through the three-piece curve with
clamping, with matching by substring, word-boundary regex or stemming;
with 4 keywords the scores at 0, 2, 3 and 4 matches are 0, 0.7, 0.85 and
1.0; is_correct holds exactly when the score is at least 0.7. -/
theorem short_answer_scoring (q : Question) (ua : Str)
    (htype : q.question_type = sShortAnswer)
    (hkw : q.keywords ≠ [])
    (hne : stripStr ua ≠ []) :
    ((evaluate_answer q ua).score
        = shortAnswerScore
            (q.keywords.filter (fun kw =>
              keywordMatches (lowerStr kw) (stripStr (lowerStr ua)))).length
            q.keywords.length)
    ∧ ((evaluate_answer q ua).is_correct = true
        ↔ (7 : ℚ)/10 ≤ (evaluate_answer q ua).score)
    ∧ ((evaluate_answer q ua).matched_keywords
        = q.keywords.filter (fun kw => keywordMatches (lowerStr kw) (stripStr (lowerStr ua))))
    ∧ ((evaluate_answer q ua).missing_keywords
        = q.keywords.filter (fun kw => ! keywordMatches (lowerStr kw) (stripStr (lowerStr ua))))
    ∧ shortAnswerScore 0 4 = 0
    ∧ shortAnswerScore 2 4 = 7/10
    ∧ shortAnswerScore 3 4 = 17/20
    ∧ shortAnswerScore 4 4 = 1 := by
  have hE : (stripStr ua).isEmpty = false := by
    cases hs : stripStr ua with
    | nil => exact absurd hs hne
    | cons a l => rfl
  have hK : q.keywords.isEmpty = false := by
    cases hs : q.keywords with
    | nil => exact absurd hs hkw
    | cons a l => rfl
  have hMC : (q.question_type == sMultipleChoice) = false := by
    rw [htype]
    rfl
  have hTF : (q.question_type == sTrueFalse) = false := by
    rw [htype]
    rfl
  have hmain : evaluate_answer q ua = evalShortAnswer q (stripStr (lowerStr ua)) := by
    unfold evaluate_answer
    rw [hE, hMC, hTF]
    rfl
  refine ⟨?_, ?_, ?_, ?_, ?_, ?_, ?_, ?_⟩
  · rw [hmain]
    unfold evalShortAnswer
    rw [hK]
    rfl
  · rw [hmain]
    unfold evalShortAnswer
    rw [hK]
    exact decide_eq_true_iff
  · rw [hmain]
    unfold evalShortAnswer
    rw [hK]
    rfl
  · rw [hmain]
    unfold evalShortAnswer
    rw [hK]
    rfl
  · unfold shortAnswerScore
    norm_num
  · unfold shortAnswerScore
    norm_num
  · unfold shortAnswerScore
    norm_num
  · unfold shortAnswerScore
    norm_num

/-- Witness for C1: the theorem applied to the concrete four-keyword
question qSA and an answer matching three of the four keywords. -/
theorem short_answer_scoring_witness :
    ((evaluate_answer qSA ( "alpha beta gamma".data )).score
        = shortAnswerScore
            (qSA.keywords.filter (fun kw =>
              keywordMatches (lowerStr kw)
                (stripStr (lowerStr ( "alpha beta gamma".data ))))).length
            qSA.keywords.length)
    ∧ ((evaluate_answer qSA ( "alpha beta gamma".data )).is_correct = true
        ↔ (7 : ℚ)/10 ≤ (evaluate_answer qSA ( "alpha beta gamma".data )).score) :=
  ⟨(short_answer_scoring qSA ( "alpha beta gamma".data ) rfl (by decide) (by decide)).1,
   (short_answer_scoring qSA ( "alpha beta gamma".data ) rfl (by decide) (by decide)).2.1⟩

/-- Mean of the per-question scores returned by evaluate_quiz. -/
theorem evalQuiz_total (th : ℚ) (qs : List Question) (ans : List (Str × Str))
    (hq : qs ≠ []) :
    (evaluate_quiz th qs ans).total_score
      = (qs.map (fun q => (evaluate_answer q (getAnswer ans q.id)).score)).sum
          / (qs.length : ℚ) := by
  have hE : qs.isEmpty = false := by
    cases qs with
    | nil => exact absurd rfl hq
    | cons a l => rfl
  simp only [evaluate_quiz, hE, Bool.false_eq_true, if_false, List.map_map]
  rfl

/-- The passed flag of evaluate_quiz tests the threshold on the mean. -/
theorem evalQuiz_passed (th : ℚ) (qs : List Question) (ans : List (Str × Str)) :
    ((evaluate_quiz th qs ans).passed = true
      ↔ th ≤ (evaluate_quiz th qs ans).total_score) :=
  decide_eq_true_iff

/-- Membership in the weak-concept list of evaluate_quiz. -/
theorem evalQuiz_weak_mem (th : ℚ) (qs : List Question) (ans : List (Str × Str))
    (s : Str) :
    (s ∈ (evaluate_quiz th qs ans).weak_concepts ↔
      (s ≠ [] ∧ ∃ q ∈ qs,
        (evaluate_answer q (getAnswer ans q.id)).score < (5 : ℚ)/10
          ∧ q.objective = s)) := by
  simp only [evaluate_quiz, List.mem_dedup, List.mem_map, List.mem_filter,
    Bool.and_eq_true, decide_eq_true_iff, Bool.not_eq_true]
  constructor
  · rintro ⟨r, ⟨⟨q2, hq2, rfl⟩, hlt, hobj⟩, rfl⟩
    refine ⟨?_, q2, hq2, hlt, rfl⟩
    intro hnil
    rw [hnil] at hobj
    exact absurd hobj (by decide)
  · rintro ⟨hs, q2, hq2, hlt, hobj⟩
    refine ⟨(q2, evaluate_answer q2 (getAnswer ans q2.id)), ⟨⟨q2, hq2, rfl⟩, hlt, ?_⟩, hobj⟩
    rw [hobj]
    cases s with
    | nil => exact absurd rfl hs
    | cons a l => rfl

/-- The weak-concept list of evaluate_quiz has no duplicates. -/
theorem evalQuiz_weak_nodup (th : ℚ) (qs : List Question) (ans : List (Str × Str)) :
    (evaluate_quiz th qs ans).weak_concepts.Nodup :=
  List.nodup_dedup _

/-- Score of the first example question on its example answer. -/
theorem scoreA_eval : (evaluate_answer qA (getAnswer ans3 qA.id)).score = 1 := by
  have h : (evaluate_answer qA (getAnswer ans3 qA.id)).score = shortAnswerScore 1 1 := rfl
  rw [h]
  unfold shortAnswerScore
  norm_num

/-- Score of the second example question on its example answer. -/
theorem scoreB_eval : (evaluate_answer qB (getAnswer ans3 qB.id)).score = 2/5 := by
  have h : (evaluate_answer qB (getAnswer ans3 qB.id)).score = shortAnswerScore 2 7 := rfl
  rw [h]
  unfold shortAnswerScore
  norm_num

/-- Score of the third example question on its example answer. -/
theorem scoreC_eval : (evaluate_answer qC (getAnswer ans3 qC.id)).score = 3/5 := by
  have h : (evaluate_answer qC (getAnswer ans3 qC.id)).score = shortAnswerScore 3 7 := rfl
  rw [h]
  unfold shortAnswerScore
  norm_num

/-- Mean score of the three-question example. -/
theorem total3_eval : (evaluate_quiz ((7 : ℚ)/10) qs3 ans3).total_score = 2/3 := by
  have h : (evaluate_quiz ((7 : ℚ)/10) qs3 ans3).total_score
      = (shortAnswerScore 1 1 + (shortAnswerScore 2 7 + (shortAnswerScore 3 7 + 0)))
          / ((3 : Nat) : ℚ) := rfl
  rw [h]
  unfold shortAnswerScore
  norm_num

/-- Claim C2 counterexample: a question with an empty objective scores
below 0.5 (here 0.0, unanswered), yet its objective is not put into
weak_concepts, because the code also requires a non-empty objective;
the unrestricted claim would demand the empty objective to be a member. -/
theorem quiz_aggregation_counterexample :
    (evaluate_answer qNoObj (getAnswer [] qNoObj.id)).score < (5 : ℚ)/10
    ∧ (evaluate_quiz ((7 : ℚ)/10) [ qNoObj ] []).weak_concepts = []
    ∧ qNoObj.objective ∉ (evaluate_quiz ((7 : ℚ)/10) [ qNoObj ] []).weak_concepts := by
  have h0 : (evaluate_answer qNoObj (getAnswer [] qNoObj.id)).score = 0 := rfl
  have hpred : (decide ((evaluate_answer qNoObj (getAnswer [] qNoObj.id)).score < (5 : ℚ)/10)
      && ! qNoObj.objective.isEmpty) = false := by
    have hob : (! qNoObj.objective.isEmpty) = false := rfl
    rw [hob, Bool.and_false]
  have hw : (evaluate_quiz ((7 : ℚ)/10) [ qNoObj ] []).weak_concepts = [] := by
    simp only [evaluate_quiz, List.map_cons, List.map_nil, List.filter_cons, List.filter_nil,
      hpred, Bool.false_eq_true, if_false, List.dedup_nil]
  refine ⟨?_, hw, ?_⟩
  · rw [h0]
    norm_num
  · rw [hw]
    exact List.not_mem_nil _

/-- Claim C2 (amended: the weak-concept set collects the objectives of
questions with a non-empty objective scoring below 0.5): evaluate_quiz
grades independently, averages the per-question scores with unanswered
questions contributing 0, passes exactly at the threshold, and collects
the deduplicated weak objectives; the three-question example scores
[1.0, 0.4, 0.6], giving mean 2/3, failing the default 0.70 threshold,
with only the objective of the 0.4 question weak. -/
theorem quiz_aggregation (th : ℚ) (qs : List Question) (ans : List (Str × Str))
    (hq : qs ≠ []) :
    ((evaluate_quiz th qs ans).total_score
        = (qs.map (fun q => (evaluate_answer q (getAnswer ans q.id)).score)).sum
            / (qs.length : ℚ))
    ∧ ((evaluate_quiz th qs ans).passed = true
        ↔ th ≤ (evaluate_quiz th qs ans).total_score)
    ∧ (∀ q ∈ qs, getAnswer ans q.id = [] →
        (evaluate_answer q (getAnswer ans q.id)).score = 0)
    ∧ (∀ s : Str, s ∈ (evaluate_quiz th qs ans).weak_concepts ↔
        (s ≠ [] ∧ ∃ q ∈ qs,
          (evaluate_answer q (getAnswer ans q.id)).score < (5 : ℚ)/10
            ∧ q.objective = s))
    ∧ (evaluate_quiz th qs ans).weak_concepts.Nodup
    ∧ (evaluate_quiz ((7 : ℚ)/10) qs3 ans3).total_score = 2/3
    ∧ (evaluate_quiz ((7 : ℚ)/10) qs3 ans3).passed = false
    ∧ ( "objB".data ∈ (evaluate_quiz ((7 : ℚ)/10) qs3 ans3).weak_concepts)
    ∧ ( "objA".data ∉ (evaluate_quiz ((7 : ℚ)/10) qs3 ans3).weak_concepts)
    ∧ ( "objC".data ∉ (evaluate_quiz ((7 : ℚ)/10) qs3 ans3).weak_concepts) := by
  have hpassed3 : (evaluate_quiz ((7 : ℚ)/10) qs3 ans3).passed = false := by
    have h : (evaluate_quiz ((7 : ℚ)/10) qs3 ans3).passed
        = decide ((7 : ℚ)/10 ≤ (evaluate_quiz ((7 : ℚ)/10) qs3 ans3).total_score) := rfl
    rw [h, total3_eval, decide_eq_false_iff_not]
    norm_num
  have hInB : ( "objB".data ∈ (evaluate_quiz ((7 : ℚ)/10) qs3 ans3).weak_concepts) := by
    rw [evalQuiz_weak_mem]
    refine ⟨by decide, qB, by decide, ?_, rfl⟩
    rw [scoreB_eval]
    norm_num
  have hNotA : ( "objA".data ∉ (evaluate_quiz ((7 : ℚ)/10) qs3 ans3).weak_concepts) := by
    rw [evalQuiz_weak_mem]
    rintro ⟨-, q2, hmem, hlt, hobj⟩
    have hcase : q2 = qA ∨ q2 = qB ∨ q2 = qC := by
      simpa [qs3] using hmem
    rcases hcase with rfl | rfl | rfl
    · rw [scoreA_eval] at hlt
      norm_num at hlt
    · exact absurd hobj (by decide)
    · exact absurd hobj (by decide)
  have hNotC : ( "objC".data ∉ (evaluate_quiz ((7 : ℚ)/10) qs3 ans3).weak_concepts) := by
    rw [evalQuiz_weak_mem]
    rintro ⟨-, q2, hmem, hlt, hobj⟩
    have hcase : q2 = qA ∨ q2 = qB ∨ q2 = qC := by
      simpa [qs3] using hmem
    rcases hcase with rfl | rfl | rfl
    · rw [scoreA_eval] at hlt
      norm_num at hlt
    · exact absurd hobj (by decide)
    · rw [scoreC_eval] at hlt
      norm_num at hlt
  refine ⟨evalQuiz_total th qs ans hq, evalQuiz_passed th qs ans, ?_,
    fun s => evalQuiz_weak_mem th qs ans s, evalQuiz_weak_nodup th qs ans,
    total3_eval, hpassed3, hInB, hNotA, hNotC⟩
  intro q hmem hempty
  rw [hempty]
  rfl

/-- Witness for C2: the amended aggregation theorem applied to the
concrete three-question example quiz. -/
theorem quiz_aggregation_witness :
    ((evaluate_quiz ((7 : ℚ)/10) qs3 ans3).total_score
        = (qs3.map (fun q => (evaluate_answer q (getAnswer ans3 q.id)).score)).sum
            / (qs3.length : ℚ))
    ∧ ((evaluate_quiz ((7 : ℚ)/10) qs3 ans3).passed = true
        ↔ (7 : ℚ)/10 ≤ (evaluate_quiz ((7 : ℚ)/10) qs3 ans3).total_score) :=
  ⟨(quiz_aggregation ((7 : ℚ)/10) qs3 ans3 (by decide)).1,
   (quiz_aggregation ((7 : ℚ)/10) qs3 ans3 (by decide)).2.1⟩

/-- Updating a bound checkpoint id makes later lookups return the new
progress value. -/
theorem lookupCp_updateCp (cps : List (Str × CheckpointProgress)) (cid : Str)
    (p v : CheckpointProgress) (h : lookupCp cps cid = some p) :
    lookupCp (updateCp cps cid v) cid = some v := by
  induction cps with
  | nil => simp [lookupCp] at h
  | cons e rest ih =>
    by_cases hc : (e.1 == cid) = true
    · simp [lookupCp, updateCp, List.find?, hc]
    · have hc2 : (e.1 == cid) = false := by
        cases hb : (e.1 == cid) with
        | false => rfl
        | true => exact absurd hb hc
      simp only [lookupCp, List.find?, hc2] at h
      simp only [lookupCp, updateCp, List.map_cons, List.find?, hc2, Bool.false_eq_true,
        if_false]
      exact ih h

/-- Closed form of start_quiz on a tracker whose session holds the
checkpoint. -/
theorem start_quiz_eq (t : ProgressTracker) (s : LearningSession) (cid : Str)
    (p : CheckpointProgress) (hs : t.session = some s)
    (hp : lookupCp s.checkpoints cid = some p) :
    start_quiz t cid
      = some (withCps t s (updateCp s.checkpoints cid (quizStartP p)), quizStartP p) := by
  simp only [start_quiz, getProgress, hs, hp, withCps]

/-- Closed form of record_quiz_result with passed = false on a tracker
whose session holds the checkpoint. -/
theorem record_fail_eq (t : ProgressTracker) (s : LearningSession) (cid : Str)
    (p : CheckpointProgress) (score : ℚ) (weak : List Str)
    (hs : t.session = some s) (hp : lookupCp s.checkpoints cid = some p) :
    record_quiz_result t cid score false weak
      = some (withCps t s (updateCp s.checkpoints cid (recordFailP p score weak)),
          recordFailP p score weak) := by
  simp only [record_quiz_result, getProgress, hs, hp, recordFailP, withCps,
    Bool.false_eq_true, if_false]

/-- The status assigned by quizStartP. -/
theorem quizStartP_status (p : CheckpointProgress) :
    (quizStartP p).status = CheckpointStatus.quiz_in_progress := rfl

/-- The attempt count incremented by quizStartP. -/
theorem quizStartP_attempt (p : CheckpointProgress) :
    (quizStartP p).attempt_count = p.attempt_count + 1 := rfl

/-- quizStartP keeps the attempt limit. -/
theorem quizStartP_max (p : CheckpointProgress) :
    (quizStartP p).max_attempts = p.max_attempts := rfl

/-- recordFailP keeps the attempt count. -/
theorem recordFailP_attempt (p : CheckpointProgress) (score : ℚ) (weak : List Str) :
    (recordFailP p score weak).attempt_count = p.attempt_count := rfl

/-- recordFailP keeps the attempt limit. -/
theorem recordFailP_max (p : CheckpointProgress) (score : ℚ) (weak : List Str) :
    (recordFailP p score weak).max_attempts = p.max_attempts := rfl

/-- The status assigned by recordFailP, in terms of can_retry of the
progress before the update (the score update changes neither the attempt
counters nor the status). -/
theorem recordFailP_status (p : CheckpointProgress) (score : ℚ) (weak : List Str) :
    (recordFailP p score weak).status
      = (if canRetry p = true then CheckpointStatus.needs_teaching
         else CheckpointStatus.failed) := rfl

/-- State of the progress after one start-quiz / failed-record cycle. -/
theorem cycleP_state (p : CheckpointProgress) (score : ℚ) :
    (failOnce p score).attempt_count = p.attempt_count + 1
    ∧ (failOnce p score).max_attempts = p.max_attempts
    ∧ (failOnce p score).status
        = (if 0 < p.max_attempts - (p.attempt_count + 1)
           then CheckpointStatus.needs_teaching
           else CheckpointStatus.failed) := by
  refine ⟨rfl, rfl, ?_⟩
  unfold failOnce
  rw [recordFailP_status]
  unfold canRetry attemptsRemaining
  rw [quizStartP_max, quizStartP_attempt, quizStartP_status]
  by_cases h : 0 < p.max_attempts - (p.attempt_count + 1)
  · simp [h]
  · simp [h]

/-- Lookup after the checkpoint map went through one cycle. -/
theorem lookupCp_cycleCps (cps : List (Str × CheckpointProgress)) (cid : Str)
    (p : CheckpointProgress) (score : ℚ) (h : lookupCp cps cid = some p) :
    lookupCp (cycleCps cps cid p score) cid = some (failOnce p score) :=
  lookupCp_updateCp _ _ _ _ (lookupCp_updateCp _ _ _ _ h)

/-- Closed form of one start-quiz / failed-record cycle on a tracker
whose session holds the checkpoint. -/
theorem startFailCycle_eq (t : ProgressTracker) (s : LearningSession) (cid : Str)
    (p : CheckpointProgress) (score : ℚ) (hs : t.session = some s)
    (hp : lookupCp s.checkpoints cid = some p) :
    startFailCycle t cid score = some (withCps t s (cycleCps s.checkpoints cid p score)) := by
  simp only [startFailCycle,
    start_quiz_eq t s cid p hs hp,
    record_fail_eq (withCps t s (updateCp s.checkpoints cid (quizStartP p)))
      ({ s with checkpoints := updateCp s.checkpoints cid (quizStartP p) }) cid
      (quizStartP p) score [] rfl (lookupCp_updateCp _ _ _ _ hp)]
  rfl

/-- One start-quiz / failed-record cycle succeeds and leaves the composed
progress update under the checkpoint id. -/
theorem startFailCycle_state (t : ProgressTracker) (s : LearningSession) (cid : Str)
    (p : CheckpointProgress) (score : ℚ) (hs : t.session = some s)
    (hp : lookupCp s.checkpoints cid = some p) :
    ∃ t2 s2, startFailCycle t cid score = some t2 ∧ t2.session = some s2
      ∧ lookupCp s2.checkpoints cid = some (failOnce p score) :=
  ⟨withCps t s (cycleCps s.checkpoints cid p score),
   { s with checkpoints := cycleCps s.checkpoints cid p score },
   startFailCycle_eq t s cid p score hs hp, rfl, lookupCp_cycleCps _ _ _ _ hp⟩

/-- Claim C3: start_quiz always increments the attempt count by one and
sets the status to quiz_in_progress at quiz start; a failing
record_quiz_result sets needs_teaching while can_retry holds and failed
once the attempts are exhausted; with max_attempts 3, three start-quiz /
failed-record cycles from a fresh checkpoint end in failed with
can_retry false. -/
theorem attempt_limit_gating :
    (∀ (t : ProgressTracker) (s : LearningSession) (cid : Str) (p : CheckpointProgress),
      t.session = some s → lookupCp s.checkpoints cid = some p →
        ((start_quiz t cid).map (fun r => r.2) = some (quizStartP p)
          ∧ (quizStartP p).attempt_count = p.attempt_count + 1
          ∧ (quizStartP p).status = CheckpointStatus.quiz_in_progress))
    ∧ (∀ (t : ProgressTracker) (s : LearningSession) (cid : Str) (p : CheckpointProgress)
        (score : ℚ) (weak : List Str),
      t.session = some s → lookupCp s.checkpoints cid = some p →
        ((canRetry p = true →
            (record_quiz_result t cid score false weak).map (fun r => r.2.status)
              = some CheckpointStatus.needs_teaching)
          ∧ (attemptsRemaining p = 0 →
            (record_quiz_result t cid score false weak).map (fun r => r.2.status)
              = some CheckpointStatus.failed)))
    ∧ (∀ (t : ProgressTracker) (s : LearningSession) (cid : Str) (p : CheckpointProgress)
        (s1 s2 s3 : ℚ),
      t.session = some s → lookupCp s.checkpoints cid = some p →
        p.max_attempts = 3 → p.attempt_count = 0 →
        (threeFailedCycles t cid s1 s2 s3).bind (fun t2 => cpState t2 cid)
          = some (CheckpointStatus.failed, 3, false)) := by
  refine ⟨?_, ?_, ?_⟩
  · intro t s cid p hs hp
    rw [start_quiz_eq t s cid p hs hp]
    exact ⟨rfl, rfl, rfl⟩
  · intro t s cid p score weak hs hp
    rw [record_fail_eq t s cid p score weak hs hp]
    constructor
    · intro hcan
      show some ((recordFailP p score weak).status) = some CheckpointStatus.needs_teaching
      rw [recordFailP_status, hcan]
      rfl
    · intro hrem
      have hcan : canRetry p = false := by
        unfold canRetry attemptsRemaining
        unfold attemptsRemaining at hrem
        rw [hrem]
        rfl
      show some ((recordFailP p score weak).status) = some CheckpointStatus.failed
      rw [recordFailP_status, hcan]
      rfl
  · intro t s cid p s1 s2 s3 hs hp hmax hcnt
    obtain ⟨t1, sb1, he1, hs1, hp1⟩ := startFailCycle_state t s cid p s1 hs hp
    obtain ⟨t2, sb2, he2, hs2, hp2⟩ :=
      startFailCycle_state t1 sb1 cid (failOnce p s1) s2 hs1 hp1
    obtain ⟨t3, sb3, he3, hs3, hp3⟩ :=
      startFailCycle_state t2 sb2 cid (failOnce (failOnce p s1) s2) s3 hs2 hp2
    have hchain : threeFailedCycles t cid s1 s2 s3 = some t3 := by
      unfold threeFailedCycles
      rw [he1]
      show (startFailCycle t1 cid s2).bind (fun t3b => startFailCycle t3b cid s3) = some t3
      rw [he2]
      show startFailCycle t2 cid s3 = some t3
      exact he3
    rw [hchain]
    show cpState t3 cid = some (CheckpointStatus.failed, 3, false)
    have hs1f := cycleP_state p s1
    have hs2f := cycleP_state (failOnce p s1) s2
    have hs3f := cycleP_state (failOnce (failOnce p s1) s2) s3
    have hcnt1 : (failOnce p s1).attempt_count = 1 := by
      rw [hs1f.1, hcnt]
    have hmax1 : (failOnce p s1).max_attempts = 3 := by
      rw [hs1f.2.1, hmax]
    have hcnt2 : (failOnce (failOnce p s1) s2).attempt_count = 2 := by
      rw [hs2f.1, hcnt1]
    have hmax2 : (failOnce (failOnce p s1) s2).max_attempts = 3 := by
      rw [hs2f.2.1, hmax1]
    have hcnt3 : (failOnce (failOnce (failOnce p s1) s2) s3).attempt_count = 3 := by
      rw [hs3f.1, hcnt2]
    have hmax3 : (failOnce (failOnce (failOnce p s1) s2) s3).max_attempts = 3 := by
      rw [hs3f.2.1, hmax2]
    have hstat3 : (failOnce (failOnce (failOnce p s1) s2) s3).status
        = CheckpointStatus.failed := by
      rw [hs3f.2.2, hcnt2, hmax2]
      rfl
    have hretry3 : canRetry (failOnce (failOnce (failOnce p s1) s2) s3) = false := by
      unfold canRetry attemptsRemaining
      rw [hcnt3, hmax3]
      rfl
    unfold cpState getProgress
    simp only [hs3, hp3, Option.map_some']
    rw [hstat3, hcnt3, hretry3]

/-- Witness for C3: three failed cycles on the concrete fresh tracker tW
end with status failed, attempt count 3 and can_retry false. -/
theorem attempt_limit_gating_witness :
    (threeFailedCycles tW ( "cp1".data ) 0 0 0).bind
        (fun t2 => cpState t2 ( "cp1".data ))
      = some (CheckpointStatus.failed, 3, false) :=
  attempt_limit_gating.2.2 tW sW ( "cp1".data ) pW 0 0 0 rfl rfl rfl rfl

/-- Claim C10: start_quiz fails exactly when there is no active session
or the checkpoint id is unknown; on any existing checkpoint it
unconditionally moves to quiz_in_progress and increments the attempt
count, regardless of the prior status; in particular a fourth call on a
failed checkpoint with three used attempts yields attempt count 4. -/
theorem start_quiz_total_behavior :
    (∀ (t : ProgressTracker) (cid : Str),
      (start_quiz t cid = none ↔ getProgress t cid = none))
    ∧ (∀ (t : ProgressTracker) (cid : Str),
      (getProgress t cid = none ↔
        (t.session = none ∨ (t.session.bind (fun s => lookupCp s.checkpoints cid)) = none)))
    ∧ (∀ (t : ProgressTracker) (s : LearningSession) (cid : Str) (p : CheckpointProgress),
      t.session = some s → lookupCp s.checkpoints cid = some p →
        ((start_quiz t cid).map (fun r => (r.2.status, r.2.attempt_count))
          = some (CheckpointStatus.quiz_in_progress, p.attempt_count + 1)))
    ∧ (∀ (t : ProgressTracker) (s : LearningSession) (cid : Str) (p : CheckpointProgress),
      t.session = some s → lookupCp s.checkpoints cid = some p →
        p.status = CheckpointStatus.failed → p.attempt_count = 3 →
        ((start_quiz t cid).map (fun r => (r.2.status, r.2.attempt_count))
          = some (CheckpointStatus.quiz_in_progress, 4))) := by
  refine ⟨?_, ?_, ?_, ?_⟩
  · intro t cid
    cases h : getProgress t cid with
    | none => simp [start_quiz, h]
    | some v => simp [start_quiz, h]
  · intro t cid
    cases hs : t.session with
    | none => simp [getProgress, hs]
    | some s =>
      cases hp : lookupCp s.checkpoints cid with
      | none => simp [getProgress, hs, hp]
      | some p => simp [getProgress, hs, hp]
  · intro t s cid p hs hp
    rw [start_quiz_eq t s cid p hs hp]
    rfl
  · intro t s cid p hs hp hstat hcnt
    rw [start_quiz_eq t s cid p hs hp]
    show some ((quizStartP p).status, (quizStartP p).attempt_count)
      = some (CheckpointStatus.quiz_in_progress, 4)
    rw [quizStartP_status, quizStartP_attempt, hcnt]

/-- Witness for C10: a fourth start_quiz call on the concrete
failed-and-exhausted tracker tF succeeds and reaches attempt count 4. -/
theorem start_quiz_total_behavior_witness :
    (start_quiz tF ( "cp1".data )).map (fun r => (r.2.status, r.2.attempt_count))
      = some (CheckpointStatus.quiz_in_progress, 4) :=
  start_quiz_total_behavior.2.2.2 tF sF ( "cp1".data ) pF rfl rfl rfl rfl

/-- The scan predicate on an unbound id. -/
theorem notPassedAt_none (cps : List (Str × CheckpointProgress)) (x : Str)
    (h : lookupCp cps x = none) : notPassedAt cps x = false := by
  unfold notPassedAt
  rw [h]

/-- The scan predicate on a bound id. -/
theorem notPassedAt_some (cps : List (Str × CheckpointProgress)) (x : Str)
    (p : CheckpointProgress) (h : lookupCp cps x = some p) :
    notPassedAt cps x = ! (p.status == CheckpointStatus.passed) := by
  unfold notPassedAt
  rw [h]

/-- The scan skips an id that is not bound in the checkpoint map. -/
theorem scanNext_cons_unbound (cps : List (Str × CheckpointProgress)) (x : Str)
    (xs : List Str) (h : lookupCp cps x = none) :
    scanNext cps (x :: xs) = scanNext cps xs := by
  show (match lookupCp cps x with
        | some p =>
          if (p.status == CheckpointStatus.passed) = true then scanNext cps xs
          else some (x, p)
        | none => scanNext cps xs) = scanNext cps xs
  rw [h]

/-- The scan skips an id whose checkpoint already passed. -/
theorem scanNext_cons_passed (cps : List (Str × CheckpointProgress)) (x : Str)
    (xs : List Str) (p : CheckpointProgress) (hl : lookupCp cps x = some p)
    (hp : (p.status == CheckpointStatus.passed) = true) :
    scanNext cps (x :: xs) = scanNext cps xs := by
  show (match lookupCp cps x with
        | some p =>
          if (p.status == CheckpointStatus.passed) = true then scanNext cps xs
          else some (x, p)
        | none => scanNext cps xs) = scanNext cps xs
  rw [hl]
  show (if (p.status == CheckpointStatus.passed) = true then scanNext cps xs
        else some (x, p)) = scanNext cps xs
  rw [hp]
  rfl

/-- The scan stops at an id whose checkpoint has not passed. -/
theorem scanNext_cons_found (cps : List (Str × CheckpointProgress)) (x : Str)
    (xs : List Str) (p : CheckpointProgress) (hl : lookupCp cps x = some p)
    (hp : (p.status == CheckpointStatus.passed) = false) :
    scanNext cps (x :: xs) = some (x, p) := by
  show (match lookupCp cps x with
        | some p2 =>
          if (p2.status == CheckpointStatus.passed) = true then scanNext cps xs
          else some (x, p2)
        | none => scanNext cps xs) = some (x, p)
  rw [hl]
  show (if (p.status == CheckpointStatus.passed) = true then scanNext cps xs
        else some (x, p)) = some (x, p)
  rw [hp]
  rfl

/-- When the scan predicate rejects every remaining id, the scan of
move_to_next_checkpoint returns none. -/
theorem scanNext_none (cps : List (Str × CheckpointProgress)) (l : List Str)
    (h : l.find? (notPassedAt cps) = none) : scanNext cps l = none := by
  induction l with
  | nil => rfl
  | cons x xs ih =>
    cases hl : lookupCp cps x with
    | none =>
      rw [scanNext_cons_unbound cps x xs hl]
      apply ih
      rw [List.find?_cons_of_neg _ (by simp [notPassedAt_none cps x hl])] at h
      exact h
    | some p =>
      cases hb : (p.status == CheckpointStatus.passed) with
      | true =>
        rw [scanNext_cons_passed cps x xs p hl hb]
        apply ih
        have hpx : notPassedAt cps x = false := by
          rw [notPassedAt_some cps x p hl, hb]
          rfl
        rw [List.find?_cons_of_neg _ (by simp [hpx])] at h
        exact h
      | false =>
        have hpx : notPassedAt cps x = true := by
          rw [notPassedAt_some cps x p hl, hb]
          rfl
        rw [List.find?_cons_of_pos _ hpx] at h
        exact absurd h (by simp)

/-- When the scan predicate first accepts an id, the scan of
move_to_next_checkpoint returns that id with its progress, whose status
is not passed. -/
theorem scanNext_some (cps : List (Str × CheckpointProgress)) (l : List Str)
    (c : Str) (h : l.find? (notPassedAt cps) = some c) :
    ∃ p, lookupCp cps c = some p ∧ (p.status == CheckpointStatus.passed) = false
      ∧ scanNext cps l = some (c, p) := by
  induction l with
  | nil => exact absurd h (by simp)
  | cons x xs ih =>
    cases hl : lookupCp cps x with
    | none =>
      rw [List.find?_cons_of_neg _ (by simp [notPassedAt_none cps x hl])] at h
      obtain ⟨p, h1, h2, h3⟩ := ih h
      exact ⟨p, h1, h2, by rw [scanNext_cons_unbound cps x xs hl]; exact h3⟩
    | some p =>
      cases hb : (p.status == CheckpointStatus.passed) with
      | true =>
        have hpx : notPassedAt cps x = false := by
          rw [notPassedAt_some cps x p hl, hb]
          rfl
        rw [List.find?_cons_of_neg _ (by simp [hpx])] at h
        obtain ⟨p2, h1, h2, h3⟩ := ih h
        exact ⟨p2, h1, h2, by rw [scanNext_cons_passed cps x xs p hl hb]; exact h3⟩
      | false =>
        have hpx : notPassedAt cps x = true := by
          rw [notPassedAt_some cps x p hl, hb]
          rfl
        rw [List.find?_cons_of_pos _ hpx] at h
        have hcx : x = c := by
          injection h
        subst hcx
        exact ⟨p, hl, hb, scanNext_cons_found cps x xs p hl hb⟩

/-- Claim C5: move_to_next_checkpoint scans strictly forward from the
position just after the current checkpoint in the session order, sets as
current and returns the first checkpoint whose status is not passed, and
returns none when no later such checkpoint exists, never wrapping
around. -/
theorem next_checkpoint_scan (t : ProgressTracker) (s : LearningSession) (cid : Str)
    (i : Nat) (hs : t.session = some s) (hc : s.current_checkpoint_id = some cid)
    (hi : t.checkpoints_order.findIdx? (fun x => x == cid) = some i) :
    ((t.checkpoints_order.drop (i + 1)).find? (notPassedAt s.checkpoints) = none →
        move_to_next_checkpoint t = (t, none))
    ∧ (∀ c2 p2,
        (t.checkpoints_order.drop (i + 1)).find? (notPassedAt s.checkpoints) = some c2 →
        lookupCp s.checkpoints c2 = some p2 →
          (move_to_next_checkpoint t
              = ({ t with session := some { s with current_checkpoint_id := some c2 } }, some p2)
            ∧ p2.status ≠ CheckpointStatus.passed
            ∧ c2 ∈ t.checkpoints_order.drop (i + 1))) := by
  constructor
  · intro h
    have hn := scanNext_none s.checkpoints _ h
    simp only [move_to_next_checkpoint, hs, hc, hi, hn]
  · intro c2 p2 hf hl
    obtain ⟨p, hp, hpass, hsc⟩ := scanNext_some s.checkpoints _ c2 hf
    rw [hp] at hl
    injection hl with hl2
    subst hl2
    refine ⟨?_, ?_, List.mem_of_find?_eq_some hf⟩
    · simp only [move_to_next_checkpoint, hs, hc, hi, hsc]
    · intro heq
      rw [heq] at hpass
      exact absurd hpass (by simp)

/-- Witness for C5: in the four-checkpoint example session with
checkpoint 2 passed and current checkpoint 1, the call returns checkpoint
3 and makes it current. -/
theorem next_checkpoint_scan_witness :
    move_to_next_checkpoint tEx
      = ({ tEx with session := some { sEx with current_checkpoint_id := some ( "c3".data ) } },
          some (mkCp ( "c3".data ) CheckpointStatus.not_started)) :=
  ((next_checkpoint_scan tEx sEx ( "c1".data ) 0 rfl rfl rfl).2
    ( "c3".data ) (mkCp ( "c3".data ) CheckpointStatus.not_started) rfl rfl).1

/-- Membership after inserting a result pair into a sorted result list. -/
theorem mem_insertByScore (x z : VectorDocument × ℚ) (l : List (VectorDocument × ℚ))
    (h : z ∈ insertByScore x l) : z = x ∨ z ∈ l := by
  induction l with
  | nil => simpa [insertByScore] using h
  | cons y ys ih =>
    unfold insertByScore at h
    by_cases hc : y.2 ≤ x.2
    · rw [if_pos hc] at h
      rcases List.mem_cons.1 h with h1 | h2
      · exact Or.inl h1
      · exact Or.inr h2
    · rw [if_neg hc] at h
      rcases List.mem_cons.1 h with h1 | h2
      · exact Or.inr (List.mem_cons.2 (Or.inl h1))
      · rcases ih h2 with h3 | h4
        · exact Or.inl h3
        · exact Or.inr (List.mem_cons.2 (Or.inr h4))

/-- Inserting into a list sorted by non-increasing score keeps it sorted. -/
theorem pairwise_insertByScore (x : VectorDocument × ℚ) (l : List (VectorDocument × ℚ))
    (h : l.Pairwise (fun a b => b.2 ≤ a.2)) :
    (insertByScore x l).Pairwise (fun a b => b.2 ≤ a.2) := by
  induction l with
  | nil => simp [insertByScore]
  | cons y ys ih =>
    unfold insertByScore
    by_cases hc : y.2 ≤ x.2
    · rw [if_pos hc]
      refine List.Pairwise.cons ?_ h
      intro z hz
      rcases List.mem_cons.1 hz with h1 | h2
      · rw [h1]
        exact hc
      · exact le_trans (List.rel_of_pairwise_cons h h2) hc
    · rw [if_neg hc]
      refine List.Pairwise.cons ?_ (ih (List.pairwise_cons.1 h).2)
      intro z hz
      rcases mem_insertByScore x z ys hz with h1 | h2
      · rw [h1]
        exact le_of_not_le hc
      · exact List.rel_of_pairwise_cons h h2

/-- The descending sort of the search results is sorted by
non-increasing score. -/
theorem pairwise_sortByScoreDesc (l : List (VectorDocument × ℚ)) :
    (sortByScoreDesc l).Pairwise (fun a b => b.2 ≤ a.2) := by
  induction l with
  | nil => simp [sortByScoreDesc]
  | cons x xs ih => exact pairwise_insertByScore x (sortByScoreDesc xs) ih

/-- Sorting the results does not create new result pairs. -/
theorem mem_sortByScoreDesc (z : VectorDocument × ℚ) (l : List (VectorDocument × ℚ))
    (h : z ∈ sortByScoreDesc l) : z ∈ l := by
  induction l with
  | nil =>
    simp only [sortByScoreDesc] at h
    exact absurd h (by simp)
  | cons x xs ih =>
    unfold sortByScoreDesc at h
    rcases mem_insertByScore x z (sortByScoreDesc xs) h with h1 | h2
    · rw [h1]
      exact List.mem_cons_self x xs
    · exact List.mem_cons.2 (Or.inr (ih h2))

/-- Claim C4: for every store, query, k at least 1 and optional metadata
filter, the brute-force search returns at most k result pairs, with
scores in non-increasing order, returns the empty sequence on an empty
store and immediately after clear, never raises, and every returned
document matches all filter key/value pairs when a filter is given. -/
theorem search_spec (emb : Str → List ℚ) (st : VectorStore) (query : Str) (k : Nat)
    (filt : Option (List (Str × Str))) (_hk : 1 ≤ k) :
    ((search emb st query k filt).length ≤ k)
    ∧ (search emb st query k filt).Pairwise (fun a b => b.2 ≤ a.2)
    ∧ (st.documents = [] → search emb st query k filt = [])
    ∧ (search emb (clear st) query k filt = [])
    ∧ (∀ f2, filt = some f2 → ∀ d sc, (d, sc) ∈ search emb st query k filt →
        metadataMatches d.metadata f2 = true) := by
  refine ⟨?_, ?_, ?_, rfl, ?_⟩
  · by_cases hE : st.documents.isEmpty
    · simp [search, hE]
    · simp only [search, hE, Bool.false_eq_true, if_false]
      exact le_trans (List.length_take k _).le (min_le_left _ _)
  · by_cases hE : st.documents.isEmpty
    · simp [search, hE]
    · simp only [search, hE, Bool.false_eq_true, if_false]
      exact (pairwise_sortByScoreDesc _).sublist (List.take_sublist _ _)
  · intro h
    have hE : st.documents.isEmpty = true := by
      rw [h]
      rfl
    simp [search, hE]
  · intro f2 hf d sc hmem
    subst hf
    by_cases hE : st.documents.isEmpty
    · simp [search, hE] at hmem
    · simp only [search, hE, Bool.false_eq_true, if_false] at hmem
      have hmem2 := mem_sortByScoreDesc _ _ (List.mem_of_mem_take hmem)
      obtain ⟨doc, hdoc, hfn⟩ := List.mem_filterMap.1 hmem2
      cases hemb : doc.embedding with
      | none =>
        rw [hemb] at hfn
        exact absurd hfn (by simp)
      | some e =>
        rw [hemb] at hfn
        have hfn2 : (if metadataMatches doc.metadata f2 = true
            then some (doc, dotQ (emb query) e) else none) = some (d, sc) := hfn
        by_cases hm : metadataMatches doc.metadata f2 = true
        · have hd : doc = d := by
            rw [if_pos hm] at hfn2
            injection hfn2 with hpair
            exact congrArg Prod.fst hpair
          rw [← hd]
          exact hm
        · rw [if_neg hm] at hfn2
          exact absurd hfn2 (by simp)

/-- Witness for C4: the search theorem applied to the concrete
two-document store with a constant embedding, k 1 and a topic filter. -/
theorem search_spec_witness :
    ((search embEx storeEx ( "q".data ) 1 (some [ ( "topic".data, "a".data ) ])).length ≤ 1)
    ∧ (search embEx storeEx ( "q".data ) 1
        (some [ ( "topic".data, "a".data ) ])).Pairwise (fun a b => b.2 ≤ a.2) :=
  ⟨(search_spec embEx storeEx ( "q".data ) 1 (some [ ( "topic".data, "a".data ) ])
      (by decide)).1,
   (search_spec embEx storeEx ( "q".data ) 1 (some [ ( "topic".data, "a".data ) ])
      (by decide)).2.1⟩

/-- Dropping a whitespace run changes no non-whitespace character. -/
theorem filterNW_dropWhile (s : Str) : filterNW (s.dropWhile isWS) = filterNW s := by
  induction s with
  | nil => rfl
  | cons c cs ih =>
    rw [List.dropWhile_cons]
    by_cases h : isWS c = true
    · rw [if_pos h, ih]
      simp [filterNW, List.filter_cons, h]
    · rw [if_neg h]

/-- The non-whitespace characters of a reversed string. -/
theorem filterNW_reverse (s : Str) : filterNW s.reverse = (filterNW s).reverse :=
  List.filter_reverse _ _

/-- Stripping trailing whitespace changes no non-whitespace character. -/
theorem filterNW_dropEnd (s : Str) : filterNW (dropEnd s) = filterNW s := by
  unfold dropEnd
  rw [filterNW_reverse, filterNW_dropWhile, filterNW_reverse, List.reverse_reverse]

/-- Stripping changes no non-whitespace character. -/
theorem filterNW_stripStr (s : Str) : filterNW (stripStr s) = filterNW s := by
  unfold stripStr dropStart
  rw [filterNW_dropWhile, filterNW_dropEnd]

/-- The non-whitespace characters of two concatenated strings. -/
theorem filterNW_append (a b : Str) : filterNW (a ++ b) = filterNW a ++ filterNW b :=
  List.filter_append a b

/-- A trailing blank-line separator disappears under strip. -/
theorem stripStr_append_nl2 (s : Str) : stripStr (s ++ nl2) = stripStr s := by
  unfold stripStr
  have h : dropEnd (s ++ nl2) = dropEnd s := by
    unfold dropEnd
    rw [List.reverse_append]
    rw [show nl2.reverse ++ s.reverse = '\n' :: '\n' :: s.reverse from rfl]
    rw [List.dropWhile_cons, if_pos (show isWS '\n' = true from rfl)]
    rw [List.dropWhile_cons, if_pos (show isWS '\n' = true from rfl)]
  rw [h]

/-- Dropping a whitespace run does not lengthen a string. -/
theorem length_dropWhileWS_le (l : Str) : (l.dropWhile isWS).length ≤ l.length := by
  induction l with
  | nil => simp
  | cons x xs ih =>
    rw [List.dropWhile_cons]
    by_cases h : isWS x = true
    · rw [if_pos h]
      exact ih.trans (Nat.le_succ _)
    · rw [if_neg h]

/-- Stripping does not lengthen a string. -/
theorem length_stripStr_le (s : Str) : (stripStr s).length ≤ s.length := by
  unfold stripStr dropStart dropEnd
  refine (length_dropWhileWS_le _).trans ?_
  rw [List.length_reverse]
  refine (length_dropWhileWS_le _).trans ?_
  rw [List.length_reverse]

/-- The paragraph split always yields at least one piece. -/
theorem splitParas_ne_nil (s : Str) : splitParas s ≠ [] := by
  induction s using splitParas.induct
  all_goals simp only [splitParas]
  · simp
  · simp
  · simp_all
  next c rest h p ps heq ih =>
    rw [heq]
    simp

/-- joinSep distributes over concatenation of paragraph lists. -/
theorem joinSep_append (a b : List Str) : joinSep (a ++ b) = joinSep a ++ joinSep b := by
  unfold joinSep
  rw [List.map_append, List.flatten_append]

/-- Re-joining the paragraph split restores the content plus one
trailing separator. -/
theorem joinSep_splitParas (s : Str) : joinSep (splitParas s) = s ++ nl2 := by
  induction s using splitParas.induct
  · simp [splitParas, joinSep]
  next rest ih =>
    simp only [splitParas, joinSep, List.map_cons, List.flatten_cons] at ih ⊢
    rw [ih]
    simp [nl2]
  next c rest h heq ih =>
    exact absurd heq (splitParas_ne_nil rest)
  next c rest h p ps heq ih =>
    simp only [splitParas, heq, joinSep, List.map_cons, List.flatten_cons] at ih ⊢
    simp only [List.cons_append, List.append_assoc] at ih ⊢
    rw [ih]

/-- The non-whitespace characters surviving the chunk loop are exactly
those of the current buffer followed by the remaining paragraphs. -/
theorem chunkLoop_filter (size : Nat) (ps : List Str) :
    ∀ cur : Str,
      filterNW ((chunkLoop size ps cur).flatten) = filterNW (cur ++ joinSep ps) := by
  induction ps with
  | nil =>
    intro cur
    show filterNW ((if cur.isEmpty = true then []
        else [ stripStr cur ]).flatten) = filterNW (cur ++ joinSep [])
    by_cases hce : cur.isEmpty = true
    · have hcur : cur = [] := by
        cases cur with
        | nil => rfl
        | cons a l => exact absurd hce (by simp)
      rw [if_pos hce, hcur]
      rfl
    · rw [if_neg hce]
      show filterNW (stripStr cur ++ []) = filterNW (cur ++ joinSep [])
      rw [filterNW_append, filterNW_stripStr]
      show filterNW cur ++ [] = filterNW (cur ++ [])
      rw [List.append_nil, List.append_nil]
  | cons para rest ih =>
    intro cur
    show filterNW ((if cur.length + para.length < size
          then chunkLoop size rest (cur ++ para ++ nl2)
          else (if cur.isEmpty = true then [] else [ stripStr cur ]) ++
            chunkLoop size rest (para ++ nl2)).flatten)
        = filterNW (cur ++ joinSep (para :: rest))
    by_cases hlt : cur.length + para.length < size
    · rw [if_pos hlt, ih]
      show filterNW (cur ++ para ++ nl2 ++ joinSep rest) = _
      show _ = filterNW (cur ++ ((para ++ nl2) ++ joinSep rest))
      simp only [filterNW_append, List.append_assoc]
    · rw [if_neg hlt, List.flatten_append, filterNW_append, ih]
      by_cases hce : cur.isEmpty = true
      · have hcur : cur = [] := by
          cases cur with
          | nil => rfl
          | cons a l => exact absurd hce (by simp)
        rw [if_pos hce, hcur]
        show filterNW ([] : Str) ++ filterNW (para ++ nl2 ++ joinSep rest)
            = filterNW ([] ++ ((para ++ nl2) ++ joinSep rest))
        simp only [filterNW_append, List.append_assoc, List.nil_append]
        rfl
      · rw [if_neg hce]
        show filterNW (stripStr cur ++ []) ++ filterNW (para ++ nl2 ++ joinSep rest)
            = filterNW (cur ++ ((para ++ nl2) ++ joinSep rest))
        rw [List.append_nil, filterNW_stripStr]
        simp only [filterNW_append, List.append_assoc]

/-- Every chunk respects the size target unless a single paragraph of the
original paragraph list already exceeds it. -/
theorem chunkLoop_bound (size : Nat) (paras0 : List Str) :
    ∀ (ps : List Str) (cur : Str),
      (∀ p2, p2 ∈ ps → p2 ∈ paras0) →
      (cur = [] ∨ (stripStr cur).length ≤ size ∨ ∃ p2 ∈ paras0, size < p2.length) →
      ∀ c ∈ chunkLoop size ps cur,
        c.length ≤ size ∨ ∃ p2 ∈ paras0, size < p2.length := by
  intro ps
  induction ps with
  | nil =>
    intro cur _ hinv c hc
    rw [show chunkLoop size [] cur
        = (if cur.isEmpty = true then [] else [ stripStr cur ]) from rfl] at hc
    by_cases hce : cur.isEmpty = true
    · rw [if_pos hce] at hc
      exact absurd hc (by simp)
    · rw [if_neg hce] at hc
      have hcs : c = stripStr cur := by
        simpa using hc
      rcases hinv with hnil | hle | hex
      · rw [hnil] at hce
        exact absurd rfl hce
      · rw [hcs]
        exact Or.inl hle
      · exact Or.inr hex
  | cons para rest ih =>
    intro cur hmem hinv c hc
    rw [show chunkLoop size (para :: rest) cur
        = (if cur.length + para.length < size
           then chunkLoop size rest (cur ++ para ++ nl2)
           else (if cur.isEmpty = true then [] else [ stripStr cur ])
             ++ chunkLoop size rest (para ++ nl2)) from rfl] at hc
    by_cases hlt : cur.length + para.length < size
    · rw [if_pos hlt] at hc
      refine ih (cur ++ para ++ nl2) (fun p2 hp2 => hmem p2 (List.mem_cons.2 (Or.inr hp2)))
        (Or.inr (Or.inl ?_)) c hc
      rw [show cur ++ para ++ nl2 = (cur ++ para) ++ nl2 from rfl, stripStr_append_nl2]
      refine (length_stripStr_le _).trans ?_
      rw [List.length_append]
      exact Nat.le_of_lt hlt
    · rw [if_neg hlt] at hc
      rcases List.mem_append.1 hc with h1 | h2
      · by_cases hce : cur.isEmpty = true
        · rw [if_pos hce] at h1
          exact absurd h1 (by simp)
        · rw [if_neg hce] at h1
          have hcs : c = stripStr cur := by
            simpa using h1
          rcases hinv with hnil | hle | hex
          · rw [hnil] at hce
            exact absurd rfl hce
          · rw [hcs]
            exact Or.inl hle
          · exact Or.inr hex
      · refine ih (para ++ nl2) (fun p2 hp2 => hmem p2 (List.mem_cons.2 (Or.inr hp2)))
          ?_ c h2
        by_cases hps : para.length ≤ size
        · refine Or.inr (Or.inl ?_)
          rw [stripStr_append_nl2]
          exact (length_stripStr_le _).trans hps
        · exact Or.inr (Or.inr ⟨para, hmem para (List.mem_cons.2 (Or.inl rfl)),
            Nat.lt_of_not_le hps⟩)

/-- Every chunk produced by the loop is the stripped join of a non-empty
run of consecutive paragraphs of the original paragraph list: the loop
never splits a paragraph. -/
theorem chunkLoop_groups (size : Nat) (paras0 : List Str) :
    ∀ (ps g pre : List Str) (cur : Str),
      paras0 = pre ++ g ++ ps → cur = joinSep g →
      ∀ c ∈ chunkLoop size ps cur,
        ∃ g2 pre2 post2, g2 ≠ [] ∧ paras0 = pre2 ++ g2 ++ post2
          ∧ c = stripStr (joinSep g2) := by
  intro ps
  induction ps with
  | nil =>
    intro g pre cur hsplit hcur c hc
    rw [show chunkLoop size [] cur
        = (if cur.isEmpty = true then [] else [ stripStr cur ]) from rfl] at hc
    by_cases hce : cur.isEmpty = true
    · rw [if_pos hce] at hc
      exact absurd hc (by simp)
    · rw [if_neg hce] at hc
      have hcs : c = stripStr cur := by
        simpa using hc
      have hg : g ≠ [] := by
        intro hgnil
        rw [hgnil] at hcur
        rw [hcur] at hce
        exact absurd rfl hce
      exact ⟨g, pre, [], hg, hsplit, by rw [hcs, hcur]⟩
  | cons para rest ih =>
    intro g pre cur hsplit hcur c hc
    rw [show chunkLoop size (para :: rest) cur
        = (if cur.length + para.length < size
           then chunkLoop size rest (cur ++ para ++ nl2)
           else (if cur.isEmpty = true then [] else [ stripStr cur ])
             ++ chunkLoop size rest (para ++ nl2)) from rfl] at hc
    by_cases hlt : cur.length + para.length < size
    · rw [if_pos hlt] at hc
      refine ih (g ++ [ para ]) pre (cur ++ para ++ nl2) ?_ ?_ c hc
      · rw [hsplit]
        simp [List.append_assoc]
      · rw [joinSep_append, hcur]
        show _ = joinSep g ++ ((para ++ nl2) ++ [].flatten)
        simp only [List.flatten_nil, List.append_nil, List.append_assoc]
    · rw [if_neg hlt] at hc
      rcases List.mem_append.1 hc with h1 | h2
      · by_cases hce : cur.isEmpty = true
        · rw [if_pos hce] at h1
          exact absurd h1 (by simp)
        · rw [if_neg hce] at h1
          have hcs : c = stripStr cur := by
            simpa using h1
          have hg : g ≠ [] := by
            intro hgnil
            rw [hgnil] at hcur
            rw [hcur] at hce
            exact absurd rfl hce
          exact ⟨g, pre, para :: rest, hg, hsplit, by rw [hcs, hcur]⟩
      · refine ih [ para ] (pre ++ g) (para ++ nl2) ?_ ?_ c h2
        · rw [hsplit]
          simp [List.append_assoc]
        · show para ++ nl2 = (para ++ nl2) ++ [].flatten
          rw [List.flatten_nil, List.append_nil]

/-- Claim C8: the chunker splits on blank-line paragraph boundaries and
greedily accumulates whole paragraphs, so every produced chunk is the
stripped join of a non-empty consecutive run of paragraphs (no paragraph
is ever split), a chunk can exceed the target size only when a single
paragraph alone exceeds it, and the concatenated chunks reproduce every
non-blank character of the input in order. -/
theorem chunking_spec (size : Nat) (content : Str) :
    (∀ c ∈ chunkContent size content,
        c.length ≤ size ∨ ∃ p ∈ splitParas content, size < p.length)
    ∧ filterNW ((chunkContent size content).flatten) = filterNW content
    ∧ (∀ c ∈ chunkContent size content,
        ∃ g pre post, g ≠ [] ∧ splitParas content = pre ++ g ++ post
          ∧ c = stripStr (joinSep g)) := by
  refine ⟨?_, ?_, ?_⟩
  · exact chunkLoop_bound size (splitParas content) (splitParas content) []
      (fun p2 h => h) (Or.inl rfl)
  · rw [chunkContent, chunkLoop_filter size (splitParas content) []]
    rw [List.nil_append, joinSep_splitParas, filterNW_append]
    show filterNW content ++ [] = filterNW content
    rw [List.append_nil]
  · exact chunkLoop_groups size (splitParas content) (splitParas content) [] [] []
      rfl rfl

/-- Witness for C8: on a six-character single-paragraph content with
target size 3, the reconstruction equation holds and the oversized chunk
is explained by an oversized paragraph. -/
theorem chunking_spec_witness :
    filterNW ((chunkContent 3 chunkContentEx).flatten) = filterNW chunkContentEx
    ∧ (∃ p ∈ splitParas chunkContentEx, 3 < p.length) :=
  ⟨(chunking_spec 3 chunkContentEx).2.1,
   ((chunking_spec 3 chunkContentEx).1 ( "aaaaaa".data ) (by decide)).resolve_left
     (by decide)⟩

end Agent


